import Mathlib

/-!
Shallow embedding of `backend/voice_recognition_service.py` and proofs of the
specification claims about it.

Python strings are modelled as `List Char`, byte buffers as `List ℕ` (each
entry < 256), Python/numpy floats as `ℝ` (claims about float values are read
up to rounding, as the spec itself does).  Fallible operations return
`Except String α`, mirroring raised exceptions carrying a message.
-/

namespace VoiceRecognition

/-! ### Model of `str.split(',')` and the data-URL prefix strip -/

/-- Model of Python `s.split(',')`: splits a character list on every comma,
keeping empty segments (so `"".split(',') == ['']`). -/
def splitComma : List Char → List (List Char)
  | [] => [[]]
  | c :: rest =>
    if c = ',' then [] :: splitComma rest
    else
      match splitComma rest with
      | [] => [[c]]
      | g :: gs => (c :: g) :: gs

/-- Model of the code `if ',' in s: s = s.split(',')[1]`: when the input
contains a comma, keep the second segment of the comma split (the text between
the first and second comma), otherwise keep the input unchanged. -/
def stripDataUrl (s : List Char) : List Char :=
  if ',' ∈ s then (splitComma s).getD 1 [] else s

/-! ### Model of `base64.b64decode` (canonical base64 inputs) -/

/-- Value of a single base64 alphabet character, `none` for padding or any
character outside the alphabet. -/
def b64val (c : Char) : Option ℕ :=
  if 'A' ≤ c ∧ c ≤ 'Z' then some (c.toNat - 65)
  else if 'a' ≤ c ∧ c ≤ 'z' then some (c.toNat - 97 + 26)
  else if '0' ≤ c ∧ c ≤ '9' then some (c.toNat - 48 + 52)
  else if c = '+' then some 62
  else if c = '/' then some 63
  else none

/-- Decode successive 4-character base64 groups into bytes; `=` padding is
accepted only at the end of the final group.  Inputs whose length is not a
multiple of four are rejected, as Python's decoder rejects them. -/
def decodeQuads : List Char → Except String (List ℕ)
  | [] => .ok []
  | c1 :: c2 :: c3 :: c4 :: rest =>
    match b64val c1, b64val c2 with
    | some v1, some v2 =>
      if c3 = '=' then
        if c4 = '=' ∧ rest = [] then .ok [v1 * 4 + v2 / 16]
        else .error "Invalid base64-encoded string"
      else
        match b64val c3 with
        | some v3 =>
          if c4 = '=' then
            if rest = [] then .ok [v1 * 4 + v2 / 16, v2 % 16 * 16 + v3 / 4]
            else .error "Invalid base64-encoded string"
          else
            match b64val c4 with
            | some v4 =>
              match decodeQuads rest with
              | .ok bs => .ok ([v1 * 4 + v2 / 16, v2 % 16 * 16 + v3 / 4,
                                v3 % 4 * 64 + v4] ++ bs)
              | .error e => .error e
            | none => .error "Invalid base64-encoded string"
        | none => .error "Invalid base64-encoded string"
    | _, _ => .error "Invalid base64-encoded string"
  | _ => .error "Incorrect padding"

/-- Model of `base64.b64decode` applied to a text payload drawn from the
base64 alphabet: returns the decoded byte buffer or an error message. -/
def b64decode (s : List Char) : Except String (List ℕ) :=
  decodeQuads s

/-! ### Model of the numpy statistics used by the feature extractor -/

/-- Model of `np.mean` over a uint8 buffer. -/
noncomputable def npMean (bs : List ℕ) : ℝ :=
  ((bs.map fun x => (x : ℝ)).sum) / bs.length

/-- Model of `np.std` (population standard deviation, `ddof = 0`). -/
noncomputable def npStd (bs : List ℕ) : ℝ :=
  Real.sqrt (((bs.map fun x => ((x : ℝ) - npMean bs) ^ 2).sum) / bs.length)

/-- Model of `np.max` over a nonempty uint8 buffer (the extractor raises
before this is ever evaluated on an empty buffer). -/
def npMax (bs : List ℕ) : ℕ := bs.foldl max 0

/-- Model of `np.min` over a nonempty uint8 buffer. -/
def npMin (bs : List ℕ) : ℕ :=
  match bs with
  | [] => 0
  | b :: rest => rest.foldl min b

/-- Model of `np.median`: middle element of the sorted buffer, or the mean of
the two middle elements when the length is even. -/
noncomputable def npMedian (bs : List ℕ) : ℝ :=
  let l := bs.insertionSort (· ≤ ·)
  let n := l.length
  if n % 2 = 1 then (l.getD (n / 2) 0 : ℝ)
  else ((l.getD (n / 2 - 1) 0 : ℝ) + (l.getD (n / 2) 0 : ℝ)) / 2

/-- Bin index assigned to value `x` by `np.histogram(_, bins=50)` over data
with minimum `mn` and maximum `mx`: uniform bins over `[mn, mx]`, each bin
half-open except the last, and the degenerate range `mn = mx` widened by 0.5
on each side (putting every value in the middle bin). -/
def binIdx (mn mx x : ℕ) : ℕ :=
  if mn = mx then 25 else min 49 ((x - mn) * 50 / (mx - mn))

/-- Model of `np.histogram(byte_array, bins=50)` bin counts. -/
def histogram (bs : List ℕ) : List ℕ :=
  (List.range 50).map fun i =>
    (bs.filter fun x => binIdx (npMin bs) (npMax bs) x = i).length

/-! ### Model of the FFT magnitudes -/

open Complex in
/-- Magnitude of the `k`-th discrete Fourier coefficient of the buffer `xs`
(model of `np.abs(np.fft.fft(xs))[k]` for a length-512 input). -/
noncomputable def fftMag (xs : List ℕ) (k : ℕ) : ℝ :=
  Complex.abs ((Finset.range 512).sum fun j =>
    (xs.getD j 0 : ℂ) *
      Complex.exp (-(2 * Real.pi * Complex.I * j * k) / 512))

/-! ### The feature extractor -/

/-- Scalar statistics appended first: mean, std, max, min, median. -/
noncomputable def statFeatures (bs : List ℕ) : List ℝ :=
  [npMean bs, npStd bs, (npMax bs : ℝ), (npMin bs : ℝ), npMedian bs]

/-- Histogram features: bin counts cast to float, truncated to 50
(`hist.astype(float).tolist()[:50]`). -/
def histFeatures (bs : List ℕ) : List ℝ :=
  ((histogram bs).take 50).map fun n => (n : ℝ)

/-- FFT features: appended only when the buffer is longer than 512 bytes,
taking the first 50 magnitudes of the FFT of the first 512 bytes. -/
noncomputable def fftFeatures (bs : List ℕ) : List ℝ :=
  if bs.length > 512 then (List.range 50).map fun k => fftMag (bs.take 512) k
  else []

/-- Pad with `0.0` on the right up to 200 entries, or truncate to the first
200 entries (`target_size = 200` in the code). -/
noncomputable def padTrunc (fs : List ℝ) : List ℝ :=
  if fs.length < 200 then fs ++ List.replicate (200 - fs.length) 0
  else fs.take 200

/-- The full feature vector computed from a nonempty decoded byte buffer. -/
noncomputable def featureList (bs : List ℕ) : List ℝ :=
  padTrunc (statFeatures bs ++ histFeatures bs ++ fftFeatures bs)

/-- Feature computation on the decoded buffer.  On an empty buffer `np.max`
raises `ValueError` (the preceding `np.mean`/`np.std` only emit warnings), so
the whole extraction fails. -/
noncomputable def extractFeaturesBytes (bs : List ℕ) : Except String (List ℝ) :=
  if bs = [] then
    .error "zero-size array to reduction operation maximum which has no identity"
  else .ok (featureList bs)

/-- Re-raise any failure of `r` with the message prefixed by `pre`, modelling
`except Exception as e: raise ValueError(f"... failed: {str(e)}")`. -/
def wrapError {α : Type} (pre : String) (r : Except String α) : Except String α :=
  match r with
  | .error e => .error (pre ++ e)
  | .ok v => .ok v

/-- Model of `extract_audio_features`: strip any data-URL prefix, base64
decode, compute the feature vector; every failure is re-raised as
`"Audio feature extraction failed: " ++ cause`. -/
noncomputable def extract_audio_features (s : List Char) : Except String (List ℝ) :=
  wrapError "Audio feature extraction failed: "
    (match b64decode (stripDataUrl s) with
     | .error e => .error e
     | .ok bs => extractFeaturesBytes bs)

/-! ### Enrollment, verification and voice-activity detection -/

/-- Modelled from the spec: the encryption collaborator (sibling
`face_recognition_service` module, not part of this source tree) providing
`encrypt_data : str -> str` and `decrypt_data : str -> str` (decryption may
fail on a malformed ciphertext), together with the Python standard-library
JSON serialization `json.dumps` / `json.loads` used on feature vectors
(`json_loads` may fail on text that is not a JSON number array).  All four
are opaque black boxes to this module. -/
structure Collab where
  encrypt_data : String → String
  decrypt_data : String → Except String String
  json_dumps : List ℝ → String
  json_loads : String → Except String (List ℝ)

/-- Model of `enroll_voice`: extract features, JSON-encode, encrypt; every
failure is re-raised as `"Voice enrollment failed: " ++ cause`. -/
noncomputable def enroll_voice (C : Collab) (s : List Char) : Except String String :=
  wrapError "Voice enrollment failed: "
    (match extract_audio_features s with
     | .error e => .error e
     | .ok v => .ok (C.encrypt_data (C.json_dumps v)))

/-- Dot product of two vectors, modelling `np.dot`; numpy raises on a shape
mismatch, so unequal lengths produce an error. -/
def npDot (a b : List ℝ) : Except String ℝ :=
  if a.length = b.length then .ok (List.zipWith (· * ·) a b).sum
  else .error "shapes not aligned"

/-- Euclidean norm of a vector, modelling `np.linalg.norm`. -/
noncomputable def npNorm (a : List ℝ) : ℝ :=
  Real.sqrt (List.zipWith (· * ·) a a).sum

/-- Result record of `verify_voice`. -/
structure VerifyResult where
  success : Bool
  confidence : ℝ
  similarity : ℝ
  threshold : ℝ

/-- Core of `verify_voice` once both feature vectors are available: dot
product, norms, the zero-norm guard, the match decision and the clamped
confidence. -/
noncomputable def verifyCore (v w : List ℝ) (tolerance : ℝ) : Except String VerifyResult :=
  match npDot v w with
  | .error e => .error e
  | .ok dp =>
    let na := npNorm v
    let nb := npNorm w
    let similarity := if na = 0 ∨ nb = 0 then (0 : ℝ) else dp / (na * nb)
    let is_match : Bool := if similarity ≥ 1 - tolerance then true else false
    let confidence := max 0 (min 100 (similarity * 100))
    .ok ⟨is_match, confidence, similarity, 1 - tolerance⟩

/-- Model of `verify_voice`: extract features from the probe, decrypt and
JSON-parse the stored blob, then run the similarity computation; every
failure is re-raised as `"Voice verification failed: " ++ cause`. -/
noncomputable def verify_voice (C : Collab) (s : List Char)
    (stored : String) (tolerance : ℝ) : Except String VerifyResult :=
  wrapError "Voice verification failed: "
    (match extract_audio_features s with
     | .error e => .error e
     | .ok v =>
       match C.decrypt_data stored with
       | .error e => .error e
       | .ok d =>
         match C.json_loads d with
         | .error e => .error e
         | .ok w => verifyCore v w tolerance)

/-- Result record of `detect_voice_in_audio`; `energy` is `none` exactly when
the returned dict carries no `"energy"` key. -/
structure DetectResult where
  voice_detected : Bool
  energy : Option ℝ
  message : String

/-- Model of `detect_voice_in_audio`: strip the data-URL prefix, decode, then
either report a too-short sample or compare the summed squared byte energy to
the fixed threshold 1 000 000.  Every failure is absorbed into a normal
result with `voice_detected = false` and an `"Error: ..."` message; this
function never raises. -/
noncomputable def detect_voice_in_audio (s : List Char) : DetectResult :=
  match b64decode (stripDataUrl s) with
  | .error e => ⟨false, none, "Error: " ++ e⟩
  | .ok bs =>
    if bs.length < 1000 then ⟨false, none, "Audio sample too short"⟩
    else
      let energy : ℝ := (bs.map fun x => (x : ℝ) ^ 2).sum
      let voice_detected : Bool := if energy > 1000000 then true else false
      ⟨voice_detected, some energy,
        if voice_detected then "Voice detected"
        else "No voice detected or audio too quiet"⟩

/-- Similarity value of `verifyCore` as a standalone function (the value bound
to `similarity` in the code once the dot product exists). -/
noncomputable def simVal (v w : List ℝ) : ℝ :=
  if npNorm v = 0 ∨ npNorm w = 0 then 0
  else (List.zipWith (· * ·) v w).sum / (npNorm v * npNorm w)

/-- The feature extractor as an explicit state transformer over an arbitrary
ambient state type: the Python function reads and writes no module state, so
its embedding returns the ambient state unchanged. -/
noncomputable def extractCall (σ : Type) (s : List Char) (st : σ) :
    Except String (List ℝ) × σ :=
  (extract_audio_features s, st)

/-- Voice-activity detection as an explicit state transformer over an
arbitrary ambient state type, mirroring that the Python function touches no
module state. -/
noncomputable def detectCall (σ : Type) (s : List Char) (st : σ) :
    DetectResult × σ :=
  (detect_voice_in_audio s, st)

/-- Collaborator instance used to exercise the theorems on concrete inputs:
encryption is the identity, decryption always succeeds with its input, JSON
serialization is a constant string and parsing always yields `w`. -/
def constCollab (w : List ℝ) : Collab :=
  ⟨fun x => x, fun x => .ok x, fun _ => "", fun _ => .ok w⟩

/-! ### Helper lemmas -/

theorem padTrunc_length (fs : List ℝ) : (padTrunc fs).length = 200 := by
  unfold padTrunc
  split
  · simp only [List.length_append, List.length_replicate]
    omega
  · simp only [List.length_take]
    omega

theorem histogram_length (bs : List ℕ) : (histogram bs).length = 50 := by
  simp [histogram]

theorem histFeatures_length (bs : List ℕ) : (histFeatures bs).length = 50 := by
  simp [histFeatures, histogram_length, List.length_take]

theorem statFeatures_length (bs : List ℕ) : (statFeatures bs).length = 5 := by
  simp [statFeatures]

theorem featureList_length (bs : List ℕ) : (featureList bs).length = 200 :=
  padTrunc_length _

theorem extract_ok {s : List Char} {bs : List ℕ}
    (hdec : b64decode (stripDataUrl s) = .ok bs) (hne : bs ≠ []) :
    extract_audio_features s = .ok (featureList bs) := by
  unfold extract_audio_features
  rw [hdec]
  simp [extractFeaturesBytes, hne, wrapError]

theorem extract_length {s : List Char} {l : List ℝ}
    (h : extract_audio_features s = .ok l) : l.length = 200 := by
  unfold extract_audio_features wrapError at h
  cases hdec : b64decode (stripDataUrl s) with
  | error e => rw [hdec] at h; simp at h
  | ok bs =>
    rw [hdec] at h
    unfold extractFeaturesBytes at h
    by_cases hne : bs = [] <;> simp [hne] at h
    rw [← h]
    exact featureList_length bs

theorem getD_replicate_zero (n i : ℕ) : (List.replicate n (0 : ℝ)).getD i 0 = 0 := by
  induction n generalizing i with
  | zero => simp
  | succ k ih =>
    cases i with
    | zero => simp [List.replicate_succ]
    | succ j => simp [List.replicate_succ, ih j]

theorem fftFeatures_of_le {bs : List ℕ} (h : bs.length ≤ 512) :
    fftFeatures bs = [] := by
  unfold fftFeatures
  split
  · omega
  · rfl

theorem fftFeatures_length_le (bs : List ℕ) : (fftFeatures bs).length ≤ 50 := by
  unfold fftFeatures
  split <;> simp

theorem histogram_head_pos (bs : List ℕ) (hne : bs ≠ []) :
    ∃ c : ℕ, c ∈ histogram bs ∧ 1 ≤ c := by
  match bs, hne with
  | x :: rest, _ =>
    set l := x :: rest with hl
    set i := binIdx (npMin l) (npMax l) x with hi
    have hi50 : i < 50 := by
      rw [hi]; unfold binIdx
      split
      · omega
      · have := Nat.min_le_left 49 ((x - npMin l) * 50 / (npMax l - npMin l))
        omega
    refine ⟨(l.filter fun y => binIdx (npMin l) (npMax l) y = i).length, ?_, ?_⟩
    · unfold histogram
      exact List.mem_map.mpr ⟨i, List.mem_range.mpr hi50, rfl⟩
    · have hx : x ∈ l.filter fun y => binIdx (npMin l) (npMax l) y = i :=
        List.mem_filter.mpr ⟨by simp [hl], by simp⟩
      have := List.length_pos.mpr (List.ne_nil_of_mem hx)
      omega

theorem featureList_unfold (bs : List ℕ) :
    featureList bs =
      (statFeatures bs ++ histFeatures bs ++ fftFeatures bs) ++
        List.replicate
          (200 - (statFeatures bs ++ histFeatures bs ++ fftFeatures bs).length) 0 := by
  unfold featureList padTrunc
  have hlen : (statFeatures bs ++ histFeatures bs ++ fftFeatures bs).length < 200 := by
    have := fftFeatures_length_le bs
    simp only [List.length_append, statFeatures_length, histFeatures_length]
    omega
  rw [if_pos hlen]

theorem featureList_mem_one_le (bs : List ℕ) (hne : bs ≠ []) :
    ∃ a : ℝ, a ∈ featureList bs ∧ 1 ≤ a := by
  obtain ⟨c, hc, hc1⟩ := histogram_head_pos bs hne
  refine ⟨(c : ℝ), ?_, by exact_mod_cast hc1⟩
  rw [featureList_unfold]
  have hmemh : (c : ℝ) ∈ histFeatures bs := by
    unfold histFeatures
    have htake : (histogram bs).take 50 = histogram bs :=
      List.take_of_length_le (le_of_eq (histogram_length bs))
    rw [htake]
    exact List.mem_map_of_mem (fun n : ℕ => (n : ℝ)) hc
  simp [List.mem_append, hmemh]

theorem dotSelf_nonneg (v : List ℝ) : 0 ≤ (List.zipWith (· * ·) v v).sum := by
  rw [List.zipWith_same]
  refine List.sum_nonneg ?_
  intro y hy
  obtain ⟨x, _, rfl⟩ := List.mem_map.mp hy
  exact mul_self_nonneg x

theorem dotSelf_featureList_pos (bs : List ℕ) (hne : bs ≠ []) :
    0 < (List.zipWith (· * ·) (featureList bs) (featureList bs)).sum := by
  obtain ⟨a, ha, ha1⟩ := featureList_mem_one_le bs hne
  rw [List.zipWith_same]
  have hmem : a * a ∈ (featureList bs).map fun x => x * x :=
    List.mem_map.mpr ⟨a, ha, rfl⟩
  have hle : a * a ≤ ((featureList bs).map fun x => x * x).sum := by
    refine List.single_le_sum ?_ _ hmem
    intro y hy
    obtain ⟨x, _, rfl⟩ := List.mem_map.mp hy
    exact mul_self_nonneg x
  nlinarith

theorem npNorm_featureList_pos (bs : List ℕ) (hne : bs ≠ []) :
    0 < npNorm (featureList bs) :=
  Real.sqrt_pos.mpr (dotSelf_featureList_pos bs hne)

theorem npNorm_mul_self (v : List ℝ) :
    npNorm v * npNorm v = (List.zipWith (· * ·) v v).sum :=
  Real.mul_self_sqrt (dotSelf_nonneg v)

theorem npNorm_replicate_zero (n : ℕ) : npNorm (List.replicate n (0 : ℝ)) = 0 := by
  unfold npNorm
  have hz : List.zipWith (· * ·) (List.replicate n (0 : ℝ)) (List.replicate n 0) =
      List.replicate n (0 : ℝ) := by
    induction n with
    | zero => rfl
    | succ k ih => simp [List.replicate_succ, ih]
  rw [hz, List.sum_replicate]
  simp

theorem featureList_getD_high {bs : List ℕ} (h : bs.length ≤ 512) {i : ℕ}
    (hi : 155 ≤ i) : (featureList bs).getD i 0 = 0 := by
  rw [featureList_unfold]
  have hflen : (statFeatures bs ++ histFeatures bs ++ fftFeatures bs).length = 55 := by
    simp [fftFeatures_of_le h, statFeatures_length, histFeatures_length]
  rw [List.getD_append_right _ _ _ _ (by omega)]
  exact getD_replicate_zero _ _

theorem splitComma_no_comma {p : List Char} (h : ',' ∉ p) : splitComma p = [p] := by
  induction p with
  | nil => rfl
  | cons c rest ih =>
    have hc : ¬ c = ',' := fun hc => h (hc ▸ List.mem_cons_self c rest)
    have hrest : ',' ∉ rest := fun hm => h (List.mem_cons_of_mem c hm)
    simp only [splitComma, if_neg hc, ih hrest]

theorem splitComma_append {a b : List Char} (h : ',' ∉ a) :
    splitComma (a ++ ',' :: b) = a :: splitComma b := by
  induction a with
  | nil => simp [splitComma]
  | cons c rest ih =>
    have hc : ¬ c = ',' := fun hc => h (hc ▸ List.mem_cons_self c rest)
    have hrest : ',' ∉ rest := fun hm => h (List.mem_cons_of_mem c hm)
    have hr := ih hrest
    simp only [List.cons_append, splitComma, if_neg hc]
    rw [show rest.append (',' :: b) = rest ++ ',' :: b from rfl, hr]

theorem stripDataUrl_no_comma {p : List Char} (h : ',' ∉ p) : stripDataUrl p = p := by
  unfold stripDataUrl
  rw [if_neg h]

theorem stripDataUrl_append {a p : List Char} (ha : ',' ∉ a) (hp : ',' ∉ p) :
    stripDataUrl (a ++ ',' :: p) = p := by
  unfold stripDataUrl
  have hmem : ',' ∈ a ++ ',' :: p :=
    List.mem_append.mpr (Or.inr (List.mem_cons_self _ _))
  rw [if_pos hmem, splitComma_append ha, splitComma_no_comma hp]
  rfl

theorem verifyCore_eq {v w : List ℝ} {t : ℝ} (hlen : v.length = w.length) :
    verifyCore v w t =
      .ok ⟨if simVal v w ≥ 1 - t then true else false,
           max 0 (min 100 (simVal v w * 100)), simVal v w, 1 - t⟩ := by
  unfold verifyCore npDot simVal
  rw [if_pos hlen]

theorem verify_eq (C : Collab) (s : List Char) (stored : String) (t : ℝ)
    {v w : List ℝ} {d : String}
    (hE : extract_audio_features s = .ok v) (hD : C.decrypt_data stored = .ok d)
    (hJ : C.json_loads d = .ok w) (hlen : v.length = w.length) :
    verify_voice C s stored t =
      .ok ⟨if simVal v w ≥ 1 - t then true else false,
           max 0 (min 100 (simVal v w * 100)), simVal v w, 1 - t⟩ := by
  unfold verify_voice
  simp only [hE, hD, hJ, verifyCore_eq hlen, wrapError]

theorem verify_ok_inv {C : Collab} {s : List Char} {stored : String} {t : ℝ}
    {r : VerifyResult} (h : verify_voice C s stored t = .ok r) :
    ∃ (v w : List ℝ) (d : String),
      extract_audio_features s = .ok v ∧ C.decrypt_data stored = .ok d ∧
        C.json_loads d = .ok w ∧ v.length = w.length ∧
        r = ⟨if simVal v w ≥ 1 - t then true else false,
             max 0 (min 100 (simVal v w * 100)), simVal v w, 1 - t⟩ := by
  unfold verify_voice wrapError at h
  cases hE : extract_audio_features s with
  | error e => simp only [hE] at h; exact Except.noConfusion h
  | ok v =>
    simp only [hE] at h
    cases hD : C.decrypt_data stored with
    | error e => simp only [hD] at h; exact Except.noConfusion h
    | ok d =>
      simp only [hD] at h
      cases hJ : C.json_loads d with
      | error e => simp only [hJ] at h; exact Except.noConfusion h
      | ok w =>
        simp only [hJ] at h
        unfold verifyCore npDot at h
        by_cases hlen : v.length = w.length
        · rw [if_pos hlen] at h
          refine ⟨v, w, d, rfl, rfl, hJ, hlen, ?_⟩
          simp only [simVal] at h ⊢
          simp only [Except.ok.injEq] at h
          exact h.symm
        · rw [if_neg hlen] at h
          exact Except.noConfusion h

theorem enroll_eq {C : Collab} {s : List Char} {bs : List ℕ}
    (hdec : b64decode (stripDataUrl s) = .ok bs) (hne : bs ≠ []) :
    enroll_voice C s = .ok (C.encrypt_data (C.json_dumps (featureList bs))) := by
  unfold enroll_voice
  rw [extract_ok hdec hne]
  rfl

theorem simVal_featureList_self (bs : List ℕ) (hne : bs ≠ []) :
    simVal (featureList bs) (featureList bs) = 1 := by
  unfold simVal
  have hpos := dotSelf_featureList_pos bs hne
  have hnorm := npNorm_featureList_pos bs hne
  rw [if_neg (by push_neg; exact ⟨ne_of_gt hnorm, ne_of_gt hnorm⟩)]
  rw [npNorm_mul_self]
  exact div_self (ne_of_gt hpos)

theorem verify_constzero (s : List Char) (bs : List ℕ) (t : ℝ)
    (hdec : b64decode (stripDataUrl s) = .ok bs) (hne : bs ≠ [])
    (ht : ¬ ((0 : ℝ) ≥ 1 - t)) :
    verify_voice (constCollab (List.replicate 200 0)) s "blob" t =
      .ok ⟨false, 0, 0, 1 - t⟩ := by
  have hE := extract_ok hdec hne
  have hlen : (featureList bs).length = (List.replicate 200 (0 : ℝ)).length := by
    rw [featureList_length, List.length_replicate]
  have hv := verify_eq (constCollab (List.replicate 200 0)) s "blob" t
    hE rfl rfl hlen
  rw [hv]
  have hsim : simVal (featureList bs) (List.replicate 200 0) = 0 := by
    unfold simVal
    rw [if_pos (Or.inr (npNorm_replicate_zero 200))]
  rw [hsim, if_neg ht]
  norm_num

theorem wrapError_error {α : Type} {pre m : String} {r : Except String α}
    (h : wrapError pre r = .error m) : ∃ c, m = pre ++ c := by
  unfold wrapError at h
  cases r with
  | error e => exact ⟨e, ((Except.error.injEq _ _).mp h).symm⟩
  | ok v => exact Except.noConfusion h

/-! ### The claims -/

/-- C1 (counterexample): the empty string is a valid base64 payload (it
decodes to the empty byte buffer), yet `extract_audio_features` does not
return a 200-element vector on it — it raises, because `np.max` of an empty
array raises.  So the claim as stated fails at the input `""`. -/
theorem C1_empty_payload_counterexample :
    b64decode (stripDataUrl []) = .ok [] ∧
      extract_audio_features [] =
        .error ("Audio feature extraction failed: " ++
          "zero-size array to reduction operation maximum which has no identity") := by
  constructor
  · rfl
  · rfl

/-- C1 (amended): for every input string whose prefix-stripped payload is
valid base64 decoding to a nonempty byte buffer, `extract_audio_features`
returns a list of exactly 200 values. -/
theorem C1_extract_length (s : List Char) (bs : List ℕ)
    (hdec : b64decode (stripDataUrl s) = .ok bs) (hne : bs ≠ []) :
    ∃ l : List ℝ, extract_audio_features s = .ok l ∧ l.length = 200 :=
  ⟨featureList bs, extract_ok hdec hne, featureList_length bs⟩

/-- Witness for C1: the payload `"QQ=="` decodes to the single byte 65 and
extraction returns a 200-element vector. -/
theorem C1_extract_length_witness :
    b64decode (stripDataUrl ("QQ==".toList)) = .ok [65] ∧
      ∃ l : List ℝ, extract_audio_features ("QQ==".toList) = .ok l ∧
        l.length = 200 :=
  ⟨rfl, C1_extract_length ("QQ==".toList) [65] rfl (by decide)⟩

/-- C5: whenever the decoded byte buffer has at most 512 bytes, no FFT
features are appended, and any returned feature vector has length 200 with
positions 155 through 199 all equal to 0. -/
theorem C5_fft_skipped (s : List Char) (bs : List ℕ)
    (hdec : b64decode (stripDataUrl s) = .ok bs) (hlen : bs.length ≤ 512) :
    fftFeatures bs = [] ∧
      ∀ l : List ℝ, extract_audio_features s = .ok l →
        l.length = 200 ∧ ∀ i : ℕ, 155 ≤ i → i < 200 → l.getD i 0 = 0 := by
  refine ⟨fftFeatures_of_le hlen, ?_⟩
  intro l hl
  unfold extract_audio_features wrapError at hl
  rw [hdec] at hl
  unfold extractFeaturesBytes at hl
  by_cases hne : bs = []
  · simp [hne] at hl
  · simp only [if_neg hne] at hl
    simp only [Except.ok.injEq] at hl
    subst hl
    exact ⟨featureList_length bs, fun i h155 _ => featureList_getD_high hlen h155⟩

/-- Witness for C5: the payload `"QQ=="` decodes to a 1-byte buffer; the
extracted vector has length 200 and zeros in positions 155 through 199. -/
theorem C5_fft_skipped_witness :
    fftFeatures [65] = [] ∧
      ∀ l : List ℝ, extract_audio_features ("QQ==".toList) = .ok l →
        l.length = 200 ∧ ∀ i : ℕ, 155 ≤ i → i < 200 → l.getD i 0 = 0 :=
  C5_fft_skipped ("QQ==".toList) [65] rfl (by decide)

/-- C9: whenever the decoded byte buffer has fewer than 1000 bytes,
`detect_voice_in_audio` reports no voice with the exact message
`"Audio sample too short"` and no energy value, regardless of content. -/
theorem C9_short_audio (s : List Char) (bs : List ℕ)
    (hdec : b64decode (stripDataUrl s) = .ok bs) (hshort : bs.length < 1000) :
    detect_voice_in_audio s = ⟨false, none, "Audio sample too short"⟩ := by
  unfold detect_voice_in_audio
  rw [hdec]
  simp only [if_pos hshort]

/-- Witness for C9: the payload `"QQ=="` decodes to a single byte, so voice
detection reports a too-short sample. -/
theorem C9_short_audio_witness :
    detect_voice_in_audio ("QQ==".toList) =
      ⟨false, none, "Audio sample too short"⟩ :=
  C9_short_audio ("QQ==".toList) [65] rfl (by decide)

/-- C6 (counterexample): `"QQ=="` is a valid base64 payload, yet prefixing it
with `"x,y" + ","` changes the result of `extract_audio_features`: the code
keeps only the text between the first and second comma (`"y"`), not the
entire remainder after the first comma, so extraction fails on the prefixed
input while it succeeds on the bare payload. -/
theorem C6_strip_counterexample :
    b64decode ("QQ==".toList) = .ok [65] ∧
      extract_audio_features ("x,y".toList ++ ',' :: "QQ==".toList) ≠
        extract_audio_features ("QQ==".toList) := by
  refine ⟨rfl, ?_⟩
  have h1 : extract_audio_features ("x,y".toList ++ ',' :: "QQ==".toList) =
      .error ("Audio feature extraction failed: " ++ "Incorrect padding") := by
    unfold extract_audio_features
    have hstrip : stripDataUrl ("x,y".toList ++ ',' :: "QQ==".toList) =
        "y".toList := by decide
    rw [hstrip]
    rfl
  have h2 : extract_audio_features ("QQ==".toList) = .ok (featureList [65]) :=
    extract_ok rfl (by decide)
  rw [h1, h2]
  exact Except.noConfusion

/-- C6 (amended): for every payload `p` and prefix `a` neither of which
contains a comma, stripping takes exactly the text after the (only) comma, so
`extract_audio_features (a ++ "," ++ p) = extract_audio_features p`. -/
theorem C6_strip_equal (a p : List Char) (ha : ',' ∉ a) (hp : ',' ∉ p) :
    stripDataUrl (a ++ ',' :: p) = p ∧
      extract_audio_features (a ++ ',' :: p) = extract_audio_features p := by
  have h := stripDataUrl_append ha hp
  refine ⟨h, ?_⟩
  unfold extract_audio_features
  rw [h, stripDataUrl_no_comma hp]

/-- Witness for C6 (amended): a genuine data-URL header before the payload
`"QQ=="` leaves the extracted features unchanged. -/
theorem C6_strip_equal_witness :
    stripDataUrl ("data:audio/wav;base64".toList ++ ',' :: "QQ==".toList) =
        "QQ==".toList ∧
      extract_audio_features ("data:audio/wav;base64".toList ++ ',' :: "QQ==".toList) =
        extract_audio_features ("QQ==".toList) :=
  C6_strip_equal ("data:audio/wav;base64".toList) ("QQ==".toList)
    (by decide) (by decide)

/-- C3: whenever verification reaches the similarity computation (probe
extraction succeeded, the stored blob decrypts and parses to a 200-element
vector) and either vector has zero Euclidean norm, the guard forces
`similarity = 0` without executing the division, and any tolerance below 1
yields `success = false`. -/
theorem C3_zero_norm_similarity (C : Collab) (s : List Char) (bs : List ℕ)
    (stored : String) (d : String) (w : List ℝ) (t : ℝ)
    (hdec : b64decode (stripDataUrl s) = .ok bs) (hne : bs ≠ [])
    (hD : C.decrypt_data stored = .ok d) (hJ : C.json_loads d = .ok w)
    (hw : w.length = 200)
    (hz : npNorm (featureList bs) = 0 ∨ npNorm w = 0) (ht : t < 1) :
    ∃ r : VerifyResult, verify_voice C s stored t = .ok r ∧
      r.similarity = 0 ∧ r.success = false := by
  have hE := extract_ok hdec hne
  have hlen : (featureList bs).length = w.length := by
    rw [featureList_length, hw]
  have hv := verify_eq C s stored t hE hD hJ hlen
  refine ⟨_, hv, ?_, ?_⟩
  · simp [simVal, hz]
  · have hsim : simVal (featureList bs) w = 0 := by simp [simVal, hz]
    simp only [hsim]
    have : ¬ ((0 : ℝ) ≥ 1 - t) := by linarith
    simp [this]

/-- Witness for C3: against a stored all-zero vector (norm 0) and the default
tolerance 0.65, verification returns similarity 0 and failure. -/
theorem C3_zero_norm_similarity_witness :
    ∃ r : VerifyResult,
      verify_voice (constCollab (List.replicate 200 0)) ("QQ==".toList)
          "blob" 0.65 = .ok r ∧
        r.similarity = 0 ∧ r.success = false :=
  C3_zero_norm_similarity (constCollab (List.replicate 200 0)) ("QQ==".toList)
    [65] "blob" "blob" (List.replicate 200 0) 0.65 rfl (by decide) rfl rfl
    (List.length_replicate 200 0) (Or.inr (npNorm_replicate_zero 200))
    (by norm_num)

/-- C4: every successful verification has `success = true` exactly when the
computed similarity is at least `1 - tolerance`, reports `threshold = 1 -
tolerance`, and a lower tolerance is stricter: success at tolerance `t`
implies success at any tolerance `u ≥ t` on the same inputs. -/
theorem C4_threshold_decision (C : Collab) (s : List Char) (stored : String)
    (t u : ℝ) (r ru : VerifyResult)
    (h : verify_voice C s stored t = .ok r)
    (hu : verify_voice C s stored u = .ok ru) (htu : t ≤ u) :
    (r.success = true ↔ r.similarity ≥ 1 - t) ∧ r.threshold = 1 - t ∧
      (r.success = true → ru.success = true) := by
  obtain ⟨v, w, d, hE, hD, hJ, hlen, hr⟩ := verify_ok_inv h
  obtain ⟨v2, w2, d2, hE2, hD2, hJ2, hlen2, hr2⟩ := verify_ok_inv hu
  have hv : v = v2 := (Except.ok.injEq _ _).mp (hE.symm.trans hE2)
  have hd : d = d2 := (Except.ok.injEq _ _).mp (hD.symm.trans hD2)
  subst hv hd
  have hwp : w = w2 := (Except.ok.injEq _ _).mp (hJ.symm.trans hJ2)
  subst hwp
  subst hr hr2
  refine ⟨?_, rfl, ?_⟩
  · show (if simVal v w ≥ 1 - t then true else false) = true ↔
      simVal v w ≥ 1 - t
    constructor
    · intro hs
      by_contra hlt
      rw [if_neg hlt] at hs
      exact Bool.noConfusion hs
    · intro hge
      rw [if_pos hge]
  · show (if simVal v w ≥ 1 - t then true else false) = true →
      (if simVal v w ≥ 1 - u then true else false) = true
    intro hs
    have hge : simVal v w ≥ 1 - t := by
      by_contra hlt
      rw [if_neg hlt] at hs
      exact Bool.noConfusion hs
    have hge2 : simVal v w ≥ 1 - u := by linarith
    rw [if_pos hge2]

/-- Witness for C4: two concrete successful verifications of the same inputs
at tolerances 0.65 and 0.7, both returning similarity 0 and failure. -/
theorem C4_threshold_decision_witness :
    verify_voice (constCollab (List.replicate 200 0)) ("QQ==".toList)
        "blob" 0.65 = .ok ⟨false, 0, 0, 1 - 0.65⟩ ∧
      ((VerifyResult.mk false 0 0 (1 - 0.65)).success = true ↔
        (VerifyResult.mk false 0 0 (1 - 0.65)).similarity ≥ 1 - 0.65) ∧
      (VerifyResult.mk false 0 0 (1 - 0.65)).threshold = 1 - 0.65 ∧
      ((VerifyResult.mk false 0 0 (1 - 0.65)).success = true →
        (VerifyResult.mk false 0 0 (1 - 0.7)).success = true) := by
  have h1 := verify_constzero ("QQ==".toList) [65] 0.65 rfl (by decide)
    (by norm_num)
  have h2 := verify_constzero ("QQ==".toList) [65] 0.7 rfl (by decide)
    (by norm_num)
  exact ⟨h1, C4_threshold_decision _ _ _ 0.65 0.7 _ _ h1 h2 (by norm_num)⟩

/-- C7: every successful verification reports a confidence equal to
`similarity * 100` clamped to `[0, 100]`; the confidence is never below 0 nor
above 100, and a negative similarity gives confidence exactly 0. -/
theorem C7_confidence_clamped (C : Collab) (s : List Char) (stored : String)
    (t : ℝ) (r : VerifyResult) (h : verify_voice C s stored t = .ok r) :
    r.confidence = max 0 (min 100 (r.similarity * 100)) ∧
      0 ≤ r.confidence ∧ r.confidence ≤ 100 ∧
      (r.similarity < 0 → r.confidence = 0) := by
  obtain ⟨v, w, d, hE, hD, hJ, hlen, hr⟩ := verify_ok_inv h
  subst hr
  refine ⟨rfl, le_max_left _ _, ?_, ?_⟩
  · exact max_le (by norm_num) (min_le_left _ _)
  · intro hneg
    have h100 : simVal v w * 100 < 0 := by
      simp only at hneg
      nlinarith
    have hmin : min 100 (simVal v w * 100) = simVal v w * 100 :=
      min_eq_right (by linarith)
    simp only [hmin]
    exact max_eq_left (by linarith)

/-- Witness for C7: a concrete successful verification whose confidence obeys
the clamp. -/
theorem C7_confidence_clamped_witness :
    verify_voice (constCollab (List.replicate 200 0)) ("QQ==".toList)
        "blob" 0.65 = .ok ⟨false, 0, 0, 1 - 0.65⟩ ∧
      ((VerifyResult.mk false 0 0 (1 - 0.65)).confidence =
          max 0 (min 100 ((VerifyResult.mk false 0 0 (1 - 0.65)).similarity * 100)) ∧
        0 ≤ (VerifyResult.mk false 0 0 (1 - 0.65)).confidence ∧
        (VerifyResult.mk false 0 0 (1 - 0.65)).confidence ≤ 100 ∧
        ((VerifyResult.mk false 0 0 (1 - 0.65)).similarity < 0 →
          (VerifyResult.mk false 0 0 (1 - 0.65)).confidence = 0)) := by
  have h1 := verify_constzero ("QQ==".toList) [65] 0.65 rfl (by decide)
    (by norm_num)
  exact ⟨h1, C7_confidence_clamped _ _ _ 0.65 _ h1⟩

/-- C2: when enrollment succeeds (the payload decodes to a nonempty buffer),
verifying the same audio against the returned ciphertext at the default
tolerance 0.65 — assuming decryption inverts encryption on strings, and that
JSON parsing inverts JSON serialization on the stored feature vector — yields
similarity exactly 1 and success. -/
theorem C2_enroll_then_verify (C : Collab) (s : List Char) (bs : List ℕ)
    (hdec : b64decode (stripDataUrl s) = .ok bs) (hne : bs ≠ [])
    (hcrypt : ∀ str : String, C.decrypt_data (C.encrypt_data str) = .ok str)
    (hjson : C.json_loads (C.json_dumps (featureList bs)) =
      .ok (featureList bs)) :
    ∃ (e : String) (r : VerifyResult), enroll_voice C s = .ok e ∧
      verify_voice C s e 0.65 = .ok r ∧ r.similarity = 1 ∧
      r.success = true := by
  have hE := extract_ok hdec hne
  have hen := enroll_eq (C := C) hdec hne
  have hv := verify_eq C s (C.encrypt_data (C.json_dumps (featureList bs)))
    0.65 hE (hcrypt _) hjson rfl
  have hsim := simVal_featureList_self bs hne
  refine ⟨_, _, hen, hv, hsim, ?_⟩
  show (if simVal (featureList bs) (featureList bs) ≥ 1 - 0.65 then true
    else false) = true
  rw [hsim, if_pos (by norm_num)]

/-- Witness for C2: enrolling the payload `"QQ=="` with identity encryption
and a JSON collaborator faithful on the stored vector, then verifying the
same payload, gives similarity 1 and success. -/
theorem C2_enroll_then_verify_witness :
    ∃ (e : String) (r : VerifyResult),
      enroll_voice (constCollab (featureList [65])) ("QQ==".toList) = .ok e ∧
        verify_voice (constCollab (featureList [65])) ("QQ==".toList) e 0.65 =
          .ok r ∧
        r.similarity = 1 ∧ r.success = true :=
  C2_enroll_then_verify (constCollab (featureList [65])) ("QQ==".toList) [65]
    rfl (by decide) (fun _ => rfl) rfl

/-- C8: every failure of extraction, enrollment or verification surfaces as a
single generic error whose message is the operation's fixed prefix followed
by the original cause, while a decode failure inside voice detection is
absorbed into a normal result with `voice_detected = false` and a message
embedding the error text (the detection function is total: it never
raises). -/
theorem C8_error_policy :
    (∀ (s : List Char) (m : String), extract_audio_features s = .error m →
        ∃ c, m = "Audio feature extraction failed: " ++ c) ∧
      (∀ (C : Collab) (s : List Char) (m : String),
        enroll_voice C s = .error m →
          ∃ c, m = "Voice enrollment failed: " ++ c) ∧
      (∀ (C : Collab) (s : List Char) (stored : String) (t : ℝ) (m : String),
        verify_voice C s stored t = .error m →
          ∃ c, m = "Voice verification failed: " ++ c) ∧
      (∀ (s : List Char) (e : String), b64decode (stripDataUrl s) = .error e →
        detect_voice_in_audio s = ⟨false, none, "Error: " ++ e⟩) := by
  refine ⟨?_, ?_, ?_, ?_⟩
  · intro s m h
    unfold extract_audio_features at h
    exact wrapError_error h
  · intro C s m h
    unfold enroll_voice at h
    exact wrapError_error h
  · intro C s stored t m h
    unfold verify_voice at h
    exact wrapError_error h
  · intro s e h
    unfold detect_voice_in_audio
    rw [h]

/-- Witness for C8: the payload `"y"` is not decodable; extraction raises the
wrapped error and voice detection absorbs the same cause into a result. -/
theorem C8_error_policy_witness :
    detect_voice_in_audio ("y".toList) =
        ⟨false, none, "Error: " ++ "Incorrect padding"⟩ ∧
      extract_audio_features ("y".toList) =
        .error ("Audio feature extraction failed: " ++ "Incorrect padding") :=
  ⟨C8_error_policy.2.2.2 ("y".toList) "Incorrect padding" rfl, rfl⟩

/-- C10: `extract_audio_features` and `detect_voice_in_audio` are
deterministic pure functions of the input string: run as state transformers
over any ambient state, their results do not depend on that state, two calls
on the same argument agree, and the state is left unchanged. -/
theorem C10_pure_deterministic (σ : Type) (st1 st2 : σ) (s : List Char) :
    (extractCall σ s st1).1 = (extractCall σ s st2).1 ∧
      (extractCall σ s st1).2 = st1 ∧
      (detectCall σ s st1).1 = (detectCall σ s st2).1 ∧
      (detectCall σ s st1).2 = st1 :=
  ⟨rfl, rfl, rfl, rfl⟩

end VoiceRecognition
